import Mathlib

/-!
Verification of the size-targeted compression engine of the image_resizer
repository (src/main.rs) against its natural-language specification.

The development shallowly embeds the core of src/main.rs:

* the quality binary search and the scale-fallback loop of smart_compress
  (main.rs lines 341-418),
* the format dispatch of save_to_buffer (lines 471-504),
* scale_image (lines 420-424), resize_image (lines 426-432), and the
  compression-relevant core of process_single_image (lines 295-333).

Modelling conventions:

* The image type, the actual codecs (JPEG/PNG encoders, the generic
  write_to), and the resamplers of the image crate are opaque
  collaborators; they are collected in the ImageBackend structure and the
  development quantifies over them.  Encoders are fallible
  (Except String), mirroring the Result-returning Rust encoders.
* Machine integers (u8 qualities, u64 sizes) are modelled as Nat.  In all
  states reachable from the program's entry points the quality bounds
  satisfy 10 <= low and high <= 95, so neither u8 underflow on
  high = quality - 1 (which would panic in Rust) nor any overflow can
  occur, and truncated Nat subtraction agrees with the Rust arithmetic.
* The f32 scale factor is modelled by exact rationals: 0.95, 0.85 and 0.3
  become 19/20, 17/20 and 3/10.  Every comparison the program performs on
  scale factors (scale_factor > 0.3 for the schedule values
  0.95 * 0.85^k) has a margin far above f32 rounding error, so the exact
  rational model and the f32 program take identical branches.
* The Rust while-loops are embedded as structurally recursive functions
  over an explicit fuel argument; the top-level entry points pass fuel
  exceeding the loops' iteration bounds (the quality range has at most 86
  probes, the scale schedule at most 9 steps), so the fuel-exhaustion
  branch, which returns the same value as normal loop exit, is never
  taken.  Fuel-irrelevance lemmas below make this exact.
-/

namespace ImageResizer

/-- Output image formats, mirroring the image::ImageFormat values that
get_image_format (main.rs lines 506-516) can produce. -/
inductive ImageFormat where
  | Jpeg | Png | Gif | Bmp | WebP | Tiff
deriving DecidableEq, Repr

/-- CompressionResult (main.rs lines 335-339): the encoded byte buffer
(bytes as Nat), the quality used (u8 as Nat), and the scale factor used
(f32 as an exact rational). -/
structure CompressionResult where
  data : List Nat
  quality : Nat
  scale : ℚ
deriving DecidableEq, Repr

/-- Opaque operations of the image crate used by main.rs: dimensions,
the two resamplers (resize preserves aspect ratio, resize_exact does not;
both Lanczos3 here), and the three encoder entry points appearing in
save_to_buffer: the quality-taking JPEG encoder, the PNG encoder (which,
in main.rs lines 483-492, is constructed with fixed CompressionType::Best
and FilterType::Adaptive and never receives the quality), and the generic
write_to used for all remaining formats.  All encoders may fail, as the
Rust encoders return Result. -/
structure ImageBackend (Image : Type) where
  width : Image → Nat
  height : Image → Nat
  resize : Image → Nat → Nat → Image
  resizeExact : Image → Nat → Nat → Image
  jpegEncode : Image → Nat → Except String (List Nat)
  pngEncode : Image → Except String (List Nat)
  writeTo : ImageFormat → Image → Except String (List Nat)

variable {Image : Type}

/-- save_to_buffer (main.rs lines 471-504): dispatch on the format tag.
Jpeg uses the JPEG encoder with the given quality; Png uses the PNG
encoder (the quality parameter is dropped, exactly as in the source);
WebP falls back to the JPEG encoder ("For WebP, fall back to JPEG for
now"); every other format goes through write_to. -/
def save_to_buffer (b : ImageBackend Image) (img : Image) (format : ImageFormat)
    (quality : Nat) : Except String (List Nat) :=
  match format with
  | ImageFormat.Jpeg => b.jpegEncode img quality
  | ImageFormat.Png => b.pngEncode img
  | ImageFormat.WebP => b.jpegEncode img quality
  | f => b.writeTo f img

/-- scale_image (main.rs lines 420-424): both dimensions are multiplied
by the scale factor and truncated to integers (the Rust `as u32` cast
truncates toward zero; the factor is positive, so this is the floor),
then the aspect-preserving Lanczos3 resampler runs. -/
def scale_image (b : ImageBackend Image) (img : Image) (scale : ℚ) : Image :=
  b.resize img (((b.width img : ℚ) * scale).floor.toNat)
    (((b.height img : ℚ) * scale).floor.toNat)

/-- resize_image (main.rs lines 426-432): aspect-preserving resize when
maintain_ratio is set, exact resize otherwise. -/
def resize_image (b : ImageBackend Image) (img : Image) (width height : Nat)
    (maintain_ratio : Bool) : Image :=
  if maintain_ratio then b.resize img width height else b.resizeExact img width height

/-- First while-loop of smart_compress (main.rs lines 355-374): binary
search over the quality range that keeps the most recent fitting probe as
best_result (with scale 1.0) and keeps searching upward after a fit.
A probe that fits raises low to quality + 1; a probe that does not fit
lowers high to quality - 1; an encoder error propagates out (the `?` on
save_to_buffer).  The fuel argument bounds the iteration count; fuel
exhaustion returns best, like normal loop exit, and is unreachable for
the fuel passed by smart_compress (see bestQualitySearch_fuel_irrelevant). -/
def bestQualitySearch (enc : Nat → Except String (List Nat)) (target : Nat) :
    Nat → Nat → Nat → Option CompressionResult → Except String (Option CompressionResult)
  | 0, _, _, best => Except.ok best
  | fuel + 1, low, high, best =>
    if low ≤ high then
      match enc ((low + high) / 2) with
      | Except.error e => Except.error e
      | Except.ok buffer =>
        if buffer.length ≤ target then
          bestQualitySearch enc target fuel ((low + high) / 2 + 1) high
            (some ⟨buffer, (low + high) / 2, 1⟩)
        else
          bestQualitySearch enc target fuel low ((low + high) / 2 - 1) best
    else Except.ok best

/-- Trace of the qualities probed by bestQualitySearch, in probe order,
mirroring its recursion step for step (the trace ends at an encoder
error, where the search aborts). -/
def bestQualityProbes (enc : Nat → Except String (List Nat)) (target : Nat) :
    Nat → Nat → Nat → List Nat
  | 0, _, _ => []
  | fuel + 1, low, high =>
    if low ≤ high then
      match enc ((low + high) / 2) with
      | Except.error _ => [(low + high) / 2]
      | Except.ok buffer =>
        if buffer.length ≤ target then
          (low + high) / 2 :: bestQualityProbes enc target fuel ((low + high) / 2 + 1) high
        else
          (low + high) / 2 :: bestQualityProbes enc target fuel low ((low + high) / 2 - 1)
    else []

/-- Inner while-loop of the scale-fallback branch of smart_compress
(main.rs lines 387-407): binary search over the quality range that
returns the FIRST fitting probe immediately (the `break` right after
best_result is set), tagging it with the current scale factor; a probe
that does not fit lowers high to quality - 1. -/
def firstFitSearch (enc : Nat → Except String (List Nat)) (target : Nat) (scale : ℚ) :
    Nat → Nat → Nat → Except String (Option CompressionResult)
  | 0, _, _ => Except.ok none
  | fuel + 1, low, high =>
    if low ≤ high then
      match enc ((low + high) / 2) with
      | Except.error e => Except.error e
      | Except.ok buffer =>
        if buffer.length ≤ target then
          Except.ok (some ⟨buffer, (low + high) / 2, scale⟩)
        else
          firstFitSearch enc target scale fuel low ((low + high) / 2 - 1)
    else Except.ok none

/-- Trace of the qualities probed by firstFitSearch, in probe order,
mirroring its recursion step for step. -/
def firstFitProbes (enc : Nat → Except String (List Nat)) (target : Nat) :
    Nat → Nat → Nat → List Nat
  | 0, _, _ => []
  | fuel + 1, low, high =>
    if low ≤ high then
      match enc ((low + high) / 2) with
      | Except.error _ => [(low + high) / 2]
      | Except.ok buffer =>
        if buffer.length ≤ target then [(low + high) / 2]
        else (low + high) / 2 :: firstFitProbes enc target fuel low ((low + high) / 2 - 1)
    else []

/-- Outer while-loop of the scale-fallback branch of smart_compress
(main.rs lines 377-415): while the scale factor exceeds 0.3, resample the
ORIGINAL image by the current factor, run the first-fit quality search
over the range starting at 60, return its result if any, otherwise
multiply the factor by 0.85 and continue.  Fuel exhaustion returns none,
like normal loop exit, and is unreachable for the fuel passed by
smart_compress (the schedule leaves (0.3, 0.95] after 8 steps; see
scaleLoop_fuel_irrelevant). -/
def scaleLoop (b : ImageBackend Image) (img : Image) (target : Nat) (format : ImageFormat) :
    Nat → ℚ → Except String (Option CompressionResult)
  | 0, _ => Except.ok none
  | fuel + 1, scale_factor =>
    if 3 / 10 < scale_factor then
      match firstFitSearch
          (fun q => save_to_buffer b (scale_image b img scale_factor) format q)
          target scale_factor 50 60 95 with
      | Except.error e => Except.error e
      | Except.ok (some r) => Except.ok (some r)
      | Except.ok none => scaleLoop b img target format fuel (scale_factor * (17 / 20))
    else Except.ok none

/-- smart_compress (main.rs lines 341-418): run the best-quality binary
search over [10, 95] first; if it found nothing and auto_scale is set,
run the scale-fallback loop starting from factor 0.95; a remaining None
becomes the error "Could not achieve target file size"
(best_result.ok_or_else at line 417).  The verbose flag only controls
printing in the source and has no effect on the returned value. -/
def smart_compress (b : ImageBackend Image) (img : Image) (target_bytes : Nat)
    (format : ImageFormat) (verbose auto_scale : Bool) : Except String CompressionResult :=
  match bestQualitySearch (fun q => save_to_buffer b img format q) target_bytes 100 10 95 none with
  | Except.error e => Except.error e
  | Except.ok (some r) => Except.ok r
  | Except.ok none =>
    if auto_scale then
      match scaleLoop b img target_bytes format 20 (19 / 20) with
      | Except.error e => Except.error e
      | Except.ok (some r) => Except.ok r
      | Except.ok none => Except.error "Could not achieve target file size"
    else Except.error "Could not achieve target file size"

/-- Compression-relevant core of process_single_image (main.rs lines
295-333), returning the bytes written to the output file: apply the
dimension resize if requested; with no target size, encode once at the
fixed default quality 90 (save_image at line 311); otherwise run
smart_compress on target_size_kb * 1024 bytes and write its data.  The
output path produced by get_output_path keeps the input extension, so
the format used by the no-target save_image call equals the one
get_image_format derives for smart_compress; both appear here as the
single format argument. -/
def process_single_image (b : ImageBackend Image) (img0 : Image)
    (dimensions : Option (Nat × Nat)) (maintain_aspect_ratio : Bool)
    (target_size_kb : Option Nat) (format : ImageFormat) (verbose auto_scale : Bool) :
    Except String (List Nat) :=
  let img := match dimensions with
    | some (w, h) => resize_image b img0 w h maintain_aspect_ratio
    | none => img0
  match target_size_kb with
  | none => save_to_buffer b img format 90
  | some kb =>
    match smart_compress b img (kb * 1024) format verbose auto_scale with
    | Except.error e => Except.error e
    | Except.ok r => Except.ok r.data

/-- Boolean fit test for a single probe: the encoding succeeded and its
length is within the target. -/
def fitProbe (enc : Nat → Except String (List Nat)) (target : Nat) (q : Nat) : Bool :=
  match enc q with
  | Except.ok buffer => buffer.length ≤ target
  | Except.error _ => false

/-- Scale schedule of the fallback loop: 0.95 multiplied by 0.85 at each
step, as exact rationals. -/
def sched (k : Nat) : ℚ := (19 / 20) * ((17 : ℚ) / 20) ^ k

/-- Images that an auto-scaling smart_compress run can hand to the
encoder: the original image, and its resample at any schedule scale still
above the 0.3 cutoff. -/
def probedImage (b : ImageBackend Image) (img : Image) (i : Image) : Prop :=
  i = img ∨ ∃ k : Nat, 3 / 10 < sched k ∧ i = scale_image b img (sched k)

/-- Replacing the aspect-preserving resampler of a backend, leaving every
other operation unchanged.  Used to state that a run does not depend on
the resampler. -/
def withResize (b : ImageBackend Image) (g : Image → Nat → Nat → Image) :
    ImageBackend Image :=
  ImageBackend.mk b.width b.height g b.resizeExact b.jpegEncode b.pngEncode b.writeTo

/-- Test backend over the one-point image type whose JPEG encoder emits
exactly `quality` bytes; all sizes grow strictly with quality. -/
def qsizeBackend : ImageBackend Unit where
  width := fun _ => 100
  height := fun _ => 100
  resize := fun _ _ _ => ()
  resizeExact := fun _ _ _ => ()
  jpegEncode := fun _ q => Except.ok (List.replicate q 0)
  pngEncode := fun _ => Except.ok []
  writeTo := fun _ _ => Except.ok []

/-- Test backend whose encoders always emit exactly two bytes, at every
quality and every (one-point) image. -/
def constBackend : ImageBackend Unit where
  width := fun _ => 100
  height := fun _ => 100
  resize := fun _ _ _ => ()
  resizeExact := fun _ _ _ => ()
  jpegEncode := fun _ _ => Except.ok [0, 0]
  pngEncode := fun _ => Except.ok [0, 0]
  writeTo := fun _ _ => Except.ok [0, 0]

/-- Test backend whose encoders always fail. -/
def errBackend : ImageBackend Unit where
  width := fun _ => 100
  height := fun _ => 100
  resize := fun _ _ _ => ()
  resizeExact := fun _ _ _ => ()
  jpegEncode := fun _ _ => Except.error "boom"
  pngEncode := fun _ => Except.error "boom"
  writeTo := fun _ _ => Except.error "boom"

/-- Test backend with a non-monotone encoder: quality 10 encodes to five
bytes, every other quality to zero bytes.  Over the one-point image type
resampling is the identity, so the quality-10 encoding is oversized at the
original size and at every schedule scale alike. -/
def nonMonoBackend : ImageBackend Unit where
  width := fun _ => 100
  height := fun _ => 100
  resize := fun _ _ _ => ()
  resizeExact := fun _ _ _ => ()
  jpegEncode := fun _ q => Except.ok (if q = 10 then List.replicate 5 0 else [])
  pngEncode := fun _ => Except.ok []
  writeTo := fun _ _ => Except.ok []

/-! ### Invariants of the quality searches and the scale loop -/

/-- Master invariant of the best-quality search: a returned result either
is the incoming best candidate, or was accepted during this run, meaning
its quality lies in the searched range, its scale is 1, its buffer is
within the target, and its data is exactly what the encoder produced at
its quality. -/
theorem bestQualitySearch_ok_some {enc : Nat → Except String (List Nat)} {target : Nat} :
    ∀ {fuel low high : Nat} {best : Option CompressionResult} {r : CompressionResult},
      bestQualitySearch enc target fuel low high best = Except.ok (some r) →
      best = some r ∨
        (low ≤ r.quality ∧ r.quality ≤ high ∧ r.scale = 1 ∧ r.data.length ≤ target ∧
          enc r.quality = Except.ok r.data) := by
  intro fuel
  induction fuel with
  | zero =>
    intro low high best r h
    simp only [bestQualitySearch] at h
    exact Or.inl (Except.ok.inj h)
  | succ fuel ih =>
    intro low high best r h
    simp only [bestQualitySearch] at h
    split at h
    · rename_i hlh
      split at h
      · exact absurd h (by simp)
      · rename_i buffer henc
        split at h
        · rename_i hfit
          rcases ih h with heq | ⟨h1, h2, h3, h4, h5⟩
          · have hr := Option.some.inj heq
            subst hr
            exact Or.inr ⟨(by omega : low ≤ (low + high) / 2),
              (by omega : (low + high) / 2 ≤ high), rfl, hfit, henc⟩
          · exact Or.inr ⟨by omega, h2, h3, h4, h5⟩
        · rename_i hfit
          rcases ih h with heq | ⟨h1, h2, h3, h4, h5⟩
          · exact Or.inl heq
          · exact Or.inr ⟨h1, by omega, h3, h4, h5⟩
    · exact Or.inl (Except.ok.inj h)

/-- Master invariant of the first-fit search: a returned result was the
probe accepted in this run, so its quality lies in the searched range,
its scale is the ambient scale factor, its buffer is within the target,
and its data is what the encoder produced at its quality. -/
theorem firstFitSearch_ok_some {enc : Nat → Except String (List Nat)} {target : Nat}
    {scale : ℚ} :
    ∀ {fuel low high : Nat} {r : CompressionResult},
      firstFitSearch enc target scale fuel low high = Except.ok (some r) →
      low ≤ r.quality ∧ r.quality ≤ high ∧ r.scale = scale ∧ r.data.length ≤ target ∧
        enc r.quality = Except.ok r.data := by
  intro fuel
  induction fuel with
  | zero =>
    intro low high r h
    simp only [firstFitSearch] at h
    exact absurd (Except.ok.inj h) (by simp)
  | succ fuel ih =>
    intro low high r h
    simp only [firstFitSearch] at h
    split at h
    · rename_i hlh
      split at h
      · exact absurd h (by simp)
      · rename_i buffer henc
        split at h
        · rename_i hfit
          have hr := Option.some.inj (Except.ok.inj h)
          subst hr
          exact ⟨(by omega : low ≤ (low + high) / 2),
            (by omega : (low + high) / 2 ≤ high), rfl, hfit, henc⟩
        · obtain ⟨a1, a2, a3, a4, a5⟩ := ih h
          exact ⟨a1, by omega, a3, a4, a5⟩
    · exact absurd (Except.ok.inj h) (by simp)

/-- Master invariant of the scale-fallback loop: a returned result comes
from some first-fit search at a scale that is the entry scale times a
power of 0.85 and still exceeds 0.3; its quality lies in [60, 95] and its
buffer is within the target. -/
theorem scaleLoop_ok_some {b : ImageBackend Image} {img : Image} {target : Nat}
    {format : ImageFormat} :
    ∀ {fuel : Nat} {s : ℚ} {r : CompressionResult},
      scaleLoop b img target format fuel s = Except.ok (some r) →
      3 / 10 < r.scale ∧ (∃ j : Nat, r.scale = s * ((17 : ℚ) / 20) ^ j) ∧
        r.data.length ≤ target ∧ 60 ≤ r.quality ∧ r.quality ≤ 95 := by
  intro fuel
  induction fuel with
  | zero =>
    intro s r h
    simp only [scaleLoop] at h
    exact absurd (Except.ok.inj h) (by simp)
  | succ fuel ih =>
    intro s r h
    simp only [scaleLoop] at h
    split at h
    · rename_i hs
      split at h
      · exact absurd h (by simp)
      · rename_i r' hinner
        have hr := Option.some.inj (Except.ok.inj h)
        subst hr
        obtain ⟨a1, a2, a3, a4, a5⟩ := firstFitSearch_ok_some hinner
        refine ⟨by rw [a3]; exact hs, ⟨0, by rw [a3]; ring⟩, a4, a1, a2⟩
      · obtain ⟨a1, ⟨j, hj⟩, a3, a4, a5⟩ := ih h
        refine ⟨a1, ⟨j + 1, ?_⟩, a3, a4, a5⟩
        rw [hj]; ring
    · exact absurd (Except.ok.inj h) (by simp)

/-- Every schedule value is at most the starting factor 0.95. -/
theorem sched_le_start (k : Nat) : sched k ≤ 19 / 20 := by
  unfold sched
  have h1 : ((17 : ℚ) / 20) ^ k ≤ 1 := by
    apply pow_le_one₀ <;> norm_num
  have h2 : (0 : ℚ) ≤ 19 / 20 := by norm_num
  calc (19 / 20 : ℚ) * ((17 : ℚ) / 20) ^ k ≤ (19 / 20) * 1 :=
        mul_le_mul_of_nonneg_left h1 h2
    _ = 19 / 20 := by ring

/-- The schedule is antitone. -/
theorem sched_le_of_le {j k : Nat} (h : j ≤ k) : sched k ≤ sched j := by
  unfold sched
  have h1 : ((17 : ℚ) / 20) ^ k ≤ ((17 : ℚ) / 20) ^ j := by
    apply pow_le_pow_of_le_one (by norm_num) (by norm_num) h
  have h2 : (0 : ℚ) ≤ 19 / 20 := by norm_num
  exact mul_le_mul_of_nonneg_left h1 h2

/-- The ninth schedule value has dropped to 0.3 or below (it is about
0.2589), so the loop condition fails there. -/
theorem sched_eight_le : sched 8 ≤ 3 / 10 := by
  norm_num [sched]

/-- A schedule value still above 0.3 can only be one of the first eight. -/
theorem lt_eight_of_sched_gt {j : Nat} (h : 3 / 10 < sched j) : j < 8 := by
  by_contra hj
  push_neg at hj
  have h1 := sched_le_of_le hj
  have h2 := sched_eight_le
  linarith

/-- Acceptance monotonicity of the best-quality search: the returned
quality is at least every fitting probe of the trace, because a fitting
probe becomes the best candidate and low moves past it, so any later
replacement has a strictly higher quality. -/
theorem bestQualitySearch_ge_fitting_probe {enc : Nat → Except String (List Nat)}
    {target : Nat} :
    ∀ {fuel low high : Nat} {best : Option CompressionResult} {r : CompressionResult}
      {Q : Nat},
      bestQualitySearch enc target fuel low high best = Except.ok (some r) →
      Q ∈ bestQualityProbes enc target fuel low high →
      fitProbe enc target Q = true → Q ≤ r.quality := by
  intro fuel
  induction fuel with
  | zero =>
    intro low high best r Q h hQ hfit
    simp only [bestQualityProbes] at hQ
    simp at hQ
  | succ fuel ih =>
    intro low high best r Q h hQ hfit
    simp only [bestQualitySearch] at h
    simp only [bestQualityProbes] at hQ
    split at h
    · rename_i hlh
      rw [if_pos hlh] at hQ
      split at h
      · exact absurd h (by simp)
      · rename_i buffer henc
        simp only [henc] at hQ
        split at h
        · rename_i hok
          rw [if_pos hok] at hQ
          rcases List.mem_cons.mp hQ with rfl | hQtail
          · rcases bestQualitySearch_ok_some h with heq | ⟨h1, _, _, _, _⟩
            · have := Option.some.inj heq
              subst this
              exact Nat.le_refl _
            · omega
          · exact ih h hQtail hfit
        · rename_i hbad
          rw [if_neg hbad] at hQ
          rcases List.mem_cons.mp hQ with rfl | hQtail
          · exact absurd hfit (by simp [fitProbe, henc, hbad])
          · exact ih h hQtail hfit
    · rename_i hlh
      rw [if_neg hlh] at hQ
      simp at hQ

/-- The first-fit search returns exactly the first fitting probe of its
trace: every earlier probe of the trace fails the fit test. -/
theorem firstFitSearch_finds_first_fit {enc : Nat → Except String (List Nat)}
    {target : Nat} {scale : ℚ} :
    ∀ {fuel low high : Nat} {r : CompressionResult},
      firstFitSearch enc target scale fuel low high = Except.ok (some r) →
      List.find? (fitProbe enc target) (firstFitProbes enc target fuel low high) =
        some r.quality := by
  intro fuel
  induction fuel with
  | zero =>
    intro low high r h
    simp only [firstFitSearch] at h
    exact absurd (Except.ok.inj h) (by simp)
  | succ fuel ih =>
    intro low high r h
    simp only [firstFitSearch] at h
    simp only [firstFitProbes]
    by_cases hlh : low ≤ high
    · rw [if_pos hlh] at h ⊢
      cases henc : enc ((low + high) / 2) with
      | error e =>
        simp only [henc] at h
        exact absurd h (by simp)
      | ok buffer =>
        simp only [henc] at h ⊢
        by_cases hok : buffer.length ≤ target
        · rw [if_pos hok] at h ⊢
          have hr := Option.some.inj (Except.ok.inj h)
          subst hr
          have hp : fitProbe enc target ((low + high) / 2) = true := by
            simp [fitProbe, henc, hok]
          exact List.find?_cons_of_pos _ hp
        · rw [if_neg hok] at h ⊢
          have hp : fitProbe enc target ((low + high) / 2) = false := by
            simp [fitProbe, henc, hok]
          rw [List.find?_cons_of_neg _ (by simp [hp])]
          exact ih h
    · rw [if_neg hlh] at h
      exact absurd (Except.ok.inj h) (by simp)

/-- Every probe of the first-fit trace lies between low and the midpoint
of the current range. -/
theorem firstFitProbes_bounds {enc : Nat → Except String (List Nat)} {target : Nat} :
    ∀ {fuel low high x : Nat},
      x ∈ firstFitProbes enc target fuel low high →
      low ≤ x ∧ 2 * x ≤ low + high := by
  intro fuel
  induction fuel with
  | zero =>
    intro low high x hx
    simp only [firstFitProbes] at hx
    simp at hx
  | succ fuel ih =>
    intro low high x hx
    simp only [firstFitProbes] at hx
    split at hx
    · rename_i hlh
      split at hx
      · rename_i e henc
        rcases List.mem_singleton.mp hx with rfl
        omega
      · rename_i buffer henc
        split at hx
        · rcases List.mem_singleton.mp hx with rfl
          omega
        · rcases List.mem_cons.mp hx with rfl | hxtail
          · omega
          · have := ih hxtail
            omega
    · simp at hx

/-- The first-fit trace is strictly decreasing: a probe that does not fit
only ever lowers the upper bound, so every later probe is strictly
smaller. -/
theorem firstFitProbes_strict_decreasing {enc : Nat → Except String (List Nat)}
    {target : Nat} :
    ∀ {fuel low high : Nat}, 1 ≤ low →
      List.Pairwise (fun a b => b < a) (firstFitProbes enc target fuel low high) := by
  intro fuel
  induction fuel with
  | zero =>
    intro low high _
    simp only [firstFitProbes]
    exact List.Pairwise.nil
  | succ fuel ih =>
    intro low high hlow
    simp only [firstFitProbes]
    split
    · rename_i hlh
      split
      · exact List.pairwise_singleton _ _
      · rename_i buffer henc
        split
        · exact List.pairwise_singleton _ _
        · refine List.pairwise_cons.mpr ⟨?_, ih hlow⟩
          intro y hy
          have hb := firstFitProbes_bounds hy
          omega
    · exact List.Pairwise.nil

/-- When every encoding in the searched range succeeds but exceeds the
target, the best-quality search leaves the best candidate untouched. -/
theorem bestQualitySearch_stays {enc : Nat → Except String (List Nat)} {target : Nat} :
    ∀ {fuel low high : Nat} {best : Option CompressionResult},
      (∀ q, low ≤ q → q ≤ high → ∃ buffer, enc q = Except.ok buffer) →
      (∀ q, low ≤ q → q ≤ high → ∀ buffer, enc q = Except.ok buffer →
        target < buffer.length) →
      bestQualitySearch enc target fuel low high best = Except.ok best := by
  intro fuel
  induction fuel with
  | zero =>
    intro low high best _ _
    simp only [bestQualitySearch]
  | succ fuel ih =>
    intro low high best hok hbig
    simp only [bestQualitySearch]
    split
    · rename_i hlh
      obtain ⟨buffer, hbuf⟩ := hok ((low + high) / 2) (by omega) (by omega)
      have hgt := hbig ((low + high) / 2) (by omega) (by omega) buffer hbuf
      simp only [hbuf]
      rw [if_neg (by omega)]
      exact ih (fun q hq1 hq2 => hok q hq1 (by omega))
        (fun q hq1 hq2 => hbig q hq1 (by omega))
    · rfl

/-- When every encoding in the searched range succeeds but exceeds the
target, the first-fit search comes back empty. -/
theorem firstFitSearch_stays {enc : Nat → Except String (List Nat)} {target : Nat}
    {scale : ℚ} :
    ∀ {fuel low high : Nat},
      (∀ q, low ≤ q → q ≤ high → ∃ buffer, enc q = Except.ok buffer) →
      (∀ q, low ≤ q → q ≤ high → ∀ buffer, enc q = Except.ok buffer →
        target < buffer.length) →
      firstFitSearch enc target scale fuel low high = Except.ok none := by
  intro fuel
  induction fuel with
  | zero =>
    intro low high _ _
    simp only [firstFitSearch]
  | succ fuel ih =>
    intro low high hok hbig
    simp only [firstFitSearch]
    split
    · rename_i hlh
      obtain ⟨buffer, hbuf⟩ := hok ((low + high) / 2) (by omega) (by omega)
      have hgt := hbig ((low + high) / 2) (by omega) (by omega) buffer hbuf
      simp only [hbuf]
      rw [if_neg (by omega)]
      exact ih (fun q hq1 hq2 => hok q hq1 (by omega))
        (fun q hq1 hq2 => hbig q hq1 (by omega))
    · rfl

/-- When, at every schedule scale the loop can reach from its entry scale,
every encoding in [10, 95] succeeds but exceeds the target, the
scale-fallback loop comes back empty. -/
theorem scaleLoop_stays {b : ImageBackend Image} {img : Image} {target : Nat}
    {format : ImageFormat} :
    ∀ {fuel : Nat} {s : ℚ},
      (∀ j : Nat, 3 / 10 < s * ((17 : ℚ) / 20) ^ j → ∀ q, 10 ≤ q → q ≤ 95 →
        ∃ buffer, save_to_buffer b (scale_image b img (s * ((17 : ℚ) / 20) ^ j)) format q =
          Except.ok buffer) →
      (∀ j : Nat, 3 / 10 < s * ((17 : ℚ) / 20) ^ j → ∀ q, 10 ≤ q → q ≤ 95 →
        ∀ buffer,
          save_to_buffer b (scale_image b img (s * ((17 : ℚ) / 20) ^ j)) format q =
            Except.ok buffer → target < buffer.length) →
      scaleLoop b img target format fuel s = Except.ok none := by
  intro fuel
  induction fuel with
  | zero =>
    intro s _ _
    simp only [scaleLoop]
  | succ fuel ih =>
    intro s hok hbig
    simp only [scaleLoop]
    split
    · rename_i hs
      have h0 : s * ((17 : ℚ) / 20) ^ 0 = s := by ring
      have hinner :
          firstFitSearch (fun q => save_to_buffer b (scale_image b img s) format q)
            target s 50 60 95 = Except.ok none := by
        apply firstFitSearch_stays
        · intro q hq1 hq2
          have := hok 0 (by rw [h0]; exact hs) q (by omega) (by omega)
          rw [h0] at this
          exact this
        · intro q hq1 hq2 buffer hbuf
          have := hbig 0 (by rw [h0]; exact hs) q (by omega) (by omega) buffer
          rw [h0] at this
          exact this hbuf
      simp only [hinner]
      apply ih
      · intro j hj q hq1 hq2
        have hrw : s * (17 / 20 : ℚ) * ((17 : ℚ) / 20) ^ j = s * ((17 : ℚ) / 20) ^ (j + 1) := by
          ring
        rw [hrw] at hj
        have := hok (j + 1) hj q hq1 hq2
        rw [← hrw] at this
        exact this
      · intro j hj q hq1 hq2 buffer hbuf
        have hrw : s * (17 / 20 : ℚ) * ((17 : ℚ) / 20) ^ j = s * ((17 : ℚ) / 20) ^ (j + 1) := by
          ring
        rw [hrw] at hj
        have := hbig (j + 1) hj q hq1 hq2 buffer
        rw [← hrw] at this
        exact this hbuf
    · rfl

/-! ### Claims -/

/-- C1: for every image, target byte budget, format, and flag setting, if
smart_compress returns a CompressionResult (from either the quality
search or the scale-fallback loop), the length of its encoded data buffer
is at most the target byte budget. -/
theorem smart_compress_within_budget (b : ImageBackend Image) (img : Image)
    (target_bytes : Nat) (format : ImageFormat) (verbose auto_scale : Bool)
    (r : CompressionResult)
    (h : smart_compress b img target_bytes format verbose auto_scale = Except.ok r) :
    r.data.length ≤ target_bytes := by
  unfold smart_compress at h
  split at h
  · exact absurd h (by simp)
  · rename_i r' hsearch
    have hr := Except.ok.inj h
    subst hr
    rcases bestQualitySearch_ok_some hsearch with heq | ⟨_, _, _, h4, _⟩
    · simp at heq
    · exact h4
  · rename_i hsearch
    split at h
    · split at h
      · exact absurd h (by simp)
      · rename_i r' hloop
        have hr := Except.ok.inj h
        subst hr
        exact (scaleLoop_ok_some hloop).2.2.1
      · exact absurd h (by simp)
    · exact absurd h (by simp)

/-- Witness for C1: with the encoder that emits exactly `quality` bytes
and budget 60, smart_compress returns quality 60 with a 60-byte buffer,
within the budget. -/
theorem smart_compress_within_budget_checked :
    (⟨List.replicate 60 0, 60, 1⟩ : CompressionResult).data.length ≤ 60 :=
  smart_compress_within_budget qsizeBackend () 60 ImageFormat.Jpeg false false
    ⟨List.replicate 60 0, 60, 1⟩ rfl

/-- C2: for every image, budget, and format, if during the initial
quality search over [10, 95] some probe at quality Q produced an encoding
that fit the budget, then the quality recorded in the search's returned
CompressionResult is at least Q. -/
theorem quality_search_monotone_in_accepted (b : ImageBackend Image) (img : Image)
    (target : Nat) (format : ImageFormat) (r : CompressionResult) (Q : Nat)
    (h : bestQualitySearch (fun q => save_to_buffer b img format q) target 100 10 95 none =
      Except.ok (some r))
    (hQ : Q ∈ bestQualityProbes (fun q => save_to_buffer b img format q) target 100 10 95)
    (hfit : fitProbe (fun q => save_to_buffer b img format q) target Q = true) :
    Q ≤ r.quality :=
  bestQualitySearch_ge_fitting_probe h hQ hfit

/-- Witness for C2: with the encoder that emits exactly `quality` bytes
and budget 60, the probe at quality 52 fits, and the search returns
quality 60 which is at least 52. -/
theorem quality_search_monotone_in_accepted_checked : (52 : Nat) ≤ 60 :=
  quality_search_monotone_in_accepted qsizeBackend () 60 ImageFormat.Jpeg
    ⟨List.replicate 60 0, 60, 1⟩ 52 rfl (by decide) rfl

/-- C3: with auto_scale disabled, if the quality search finds no fitting
probe, smart_compress returns the unreachable-target error without
entering the scale-fallback loop: the outcome is the error, and it does
not depend on the resampler at all (replacing it changes nothing). -/
theorem no_auto_scale_skips_fallback (b : ImageBackend Image) (img : Image)
    (target : Nat) (format : ImageFormat) (verbose : Bool)
    (h : bestQualitySearch (fun q => save_to_buffer b img format q) target 100 10 95 none =
      Except.ok none) :
    smart_compress b img target format verbose false =
      Except.error "Could not achieve target file size" ∧
    ∀ g : Image → Nat → Nat → Image,
      smart_compress (withResize b g) img target format verbose false =
        smart_compress b img target format verbose false := by
  have hmain : smart_compress b img target format verbose false =
      Except.error "Could not achieve target file size" := by
    unfold smart_compress
    simp [h]
  refine ⟨hmain, fun g => ?_⟩
  have hsb : (fun q => save_to_buffer (withResize b g) img format q) =
      (fun q => save_to_buffer b img format q) := by
    funext q
    cases format <;> rfl
  rw [hmain]
  unfold smart_compress
  rw [hsb]
  simp [h]

/-- Witness for C3: the two-byte-constant encoder cannot meet budget 1,
and with auto_scale off smart_compress fails with the unreachable error,
independently of the resampler. -/
theorem no_auto_scale_skips_fallback_checked :
    smart_compress constBackend () 1 ImageFormat.Jpeg false false =
      Except.error "Could not achieve target file size" ∧
    ∀ g : Unit → Nat → Nat → Unit,
      smart_compress (withResize constBackend g) () 1 ImageFormat.Jpeg false false =
        smart_compress constBackend () 1 ImageFormat.Jpeg false false :=
  no_auto_scale_skips_fallback constBackend () 1 ImageFormat.Jpeg false rfl

/-- C4: a successful smart_compress call returns scale exactly 1 (quality
search success) or a value of the geometric schedule 0.95 * 0.85 ^ k, in
which case the scale is above 0.3 and at most 0.95. -/
theorem smart_compress_scale_in_schedule (b : ImageBackend Image) (img : Image)
    (target_bytes : Nat) (format : ImageFormat) (verbose auto_scale : Bool)
    (r : CompressionResult)
    (h : smart_compress b img target_bytes format verbose auto_scale = Except.ok r) :
    r.scale = 1 ∨
      ∃ k : Nat, r.scale = sched k ∧ 3 / 10 < r.scale ∧ r.scale ≤ 19 / 20 := by
  unfold smart_compress at h
  split at h
  · exact absurd h (by simp)
  · rename_i r' hsearch
    have hr := Except.ok.inj h
    subst hr
    rcases bestQualitySearch_ok_some hsearch with heq | ⟨_, _, h3, _, _⟩
    · simp at heq
    · exact Or.inl h3
  · rename_i hsearch
    split at h
    · split at h
      · exact absurd h (by simp)
      · rename_i r' hloop
        have hr := Except.ok.inj h
        subst hr
        obtain ⟨a1, ⟨j, hj⟩, _, _, _⟩ := scaleLoop_ok_some hloop
        refine Or.inr ⟨j, hj, a1, ?_⟩
        rw [hj]
        exact sched_le_start j
      · exact absurd h (by simp)
    · exact absurd h (by simp)

/-- Witness for C4: the quality-search success of the C1 witness carries
scale exactly 1, the first disjunct. -/
theorem smart_compress_scale_in_schedule_checked :
    (⟨List.replicate 60 0, 60, 1⟩ : CompressionResult).scale = 1 ∨
      ∃ k : Nat, (⟨List.replicate 60 0, 60, 1⟩ : CompressionResult).scale = sched k ∧
        3 / 10 < (⟨List.replicate 60 0, 60, 1⟩ : CompressionResult).scale ∧
        (⟨List.replicate 60 0, 60, 1⟩ : CompressionResult).scale ≤ 19 / 20 :=
  smart_compress_scale_in_schedule qsizeBackend () 60 ImageFormat.Jpeg false false
    ⟨List.replicate 60 0, 60, 1⟩ rfl

/-- When every encoding in the searched range succeeds, the best-quality
search cannot return an error. -/
theorem bestQualitySearch_no_error {enc : Nat → Except String (List Nat)} {target : Nat} :
    ∀ {fuel low high : Nat} {best : Option CompressionResult},
      (∀ q, low ≤ q → q ≤ high → ∃ buffer, enc q = Except.ok buffer) →
      ∃ o, bestQualitySearch enc target fuel low high best = Except.ok o := by
  intro fuel
  induction fuel with
  | zero =>
    intro low high best _
    exact ⟨best, by simp only [bestQualitySearch]⟩
  | succ fuel ih =>
    intro low high best hok
    simp only [bestQualitySearch]
    split
    · rename_i hlh
      obtain ⟨buffer, hbuf⟩ := hok ((low + high) / 2) (by omega) (by omega)
      simp only [hbuf]
      split
      · exact ih (fun q hq1 hq2 => hok q (by omega) (by omega))
      · exact ih (fun q hq1 hq2 => hok q hq1 (by omega))
    · exact ⟨best, rfl⟩

/-- C5: the inner quality search of a scale step returns exactly the
first probe of its binary-search trace whose encoded size fits the
budget (every earlier probe fails the fit test, and the search stops
there instead of probing for a higher fitting quality); moreover the
trace is strictly decreasing, since a non-fitting probe only lowers the
upper bound. -/
theorem scale_step_inner_first_fit (b : ImageBackend Image) (simg : Image)
    (target : Nat) (format : ImageFormat) (s : ℚ) (r : CompressionResult)
    (h : firstFitSearch (fun q => save_to_buffer b simg format q) target s 50 60 95 =
      Except.ok (some r)) :
    List.find? (fitProbe (fun q => save_to_buffer b simg format q) target)
        (firstFitProbes (fun q => save_to_buffer b simg format q) target 50 60 95) =
      some r.quality ∧
    r.scale = s ∧ r.data.length ≤ target ∧
    List.Pairwise (fun x y => y < x)
      (firstFitProbes (fun q => save_to_buffer b simg format q) target 50 60 95) := by
  obtain ⟨_, _, a3, a4, _⟩ := firstFitSearch_ok_some h
  exact ⟨firstFitSearch_finds_first_fit h, a3, a4,
    firstFitProbes_strict_decreasing (by omega)⟩

/-- Witness for C5: with the encoder that emits exactly `quality` bytes
and budget 70, the inner trace is [77, 68]; 77 does not fit, 68 is the
first fit and is returned. -/
theorem scale_step_inner_first_fit_checked :
    List.find? (fitProbe (fun q => save_to_buffer qsizeBackend () ImageFormat.Jpeg q) 70)
        (firstFitProbes (fun q => save_to_buffer qsizeBackend () ImageFormat.Jpeg q)
          70 50 60 95) =
      some (⟨List.replicate 68 0, 68, 1⟩ : CompressionResult).quality ∧
    (⟨List.replicate 68 0, 68, 1⟩ : CompressionResult).scale = 1 ∧
    (⟨List.replicate 68 0, 68, 1⟩ : CompressionResult).data.length ≤ 70 ∧
    List.Pairwise (fun x y => y < x)
      (firstFitProbes (fun q => save_to_buffer qsizeBackend () ImageFormat.Jpeg q)
        70 50 60 95) :=
  scale_step_inner_first_fit qsizeBackend () 70 ImageFormat.Jpeg 1
    ⟨List.replicate 68 0, 68, 1⟩ rfl

/-- C6: when no target size is specified, the compression path performs
no search at all: the written output is a single encoding of the
(possibly dimension-resized) image at the fixed default quality 90,
regardless of the resulting byte size. -/
theorem no_target_encodes_once_at_default (b : ImageBackend Image) (img0 : Image)
    (dimensions : Option (Nat × Nat)) (maintain_aspect_ratio : Bool)
    (format : ImageFormat) (verbose auto_scale : Bool) :
    process_single_image b img0 dimensions maintain_aspect_ratio none format verbose
        auto_scale =
      save_to_buffer b
        (match dimensions with
          | some (w, h) => resize_image b img0 w h maintain_aspect_ratio
          | none => img0)
        format 90 := rfl

/-- Counterexample to C7 as stated: with a non-monotone encoder (quality
10 encodes to 5 bytes, every other quality to 0 bytes, over the one-point
image type where resampling is the identity), the quality-10 encoding
exceeds the 3-byte target at the original size and at every schedule
scale, yet smart_compress with auto_scale succeeds via the quality search
instead of returning the unreachable-target error. -/
theorem min_quality_unreachable_cex :
    save_to_buffer nonMonoBackend () ImageFormat.Jpeg 10 =
      Except.ok (List.replicate 5 0) ∧
    3 < (List.replicate 5 (0 : Nat)).length ∧
    scale_image nonMonoBackend () (19 / 20) = () ∧
    smart_compress nonMonoBackend () 3 ImageFormat.Jpeg false true =
      Except.ok ⟨[], 95, 1⟩ :=
  ⟨rfl, by decide, rfl, rfl⟩

/-- C7 (amended): with auto_scale enabled, if the encoder succeeds on the
probed images with sizes monotone in quality, and the encoding at minimum
quality 10 already exceeds the target at the original size and at every
schedule scale down to 0.3, then smart_compress returns the
unreachable-target error. -/
theorem smart_compress_unreachable_of_monotone (b : ImageBackend Image) (img : Image)
    (target : Nat) (format : ImageFormat) (verbose : Bool)
    (htotal : ∀ i, probedImage b img i → ∀ q, 10 ≤ q → q ≤ 95 →
      ∃ buffer, save_to_buffer b i format q = Except.ok buffer)
    (hmono : ∀ i, probedImage b img i → ∀ q₁ q₂ buf₁ buf₂, 10 ≤ q₁ → q₁ ≤ q₂ →
      save_to_buffer b i format q₁ = Except.ok buf₁ →
      save_to_buffer b i format q₂ = Except.ok buf₂ → buf₁.length ≤ buf₂.length)
    (h10 : ∀ i, probedImage b img i → ∀ buffer,
      save_to_buffer b i format 10 = Except.ok buffer → target < buffer.length) :
    smart_compress b img target format verbose true =
      Except.error "Could not achieve target file size" := by
  have key : ∀ i, probedImage b img i → ∀ q, 10 ≤ q → q ≤ 95 → ∀ buffer,
      save_to_buffer b i format q = Except.ok buffer → target < buffer.length := by
    intro i hi q hq1 hq2 buffer hbuf
    obtain ⟨b10, hb10⟩ := htotal i hi 10 (Nat.le_refl 10) (by omega)
    have hle := hmono i hi 10 q b10 buffer (Nat.le_refl 10) hq1 hb10 hbuf
    have hgt := h10 i hi b10 hb10
    omega
  have houter :
      bestQualitySearch (fun q => save_to_buffer b img format q) target 100 10 95 none =
        Except.ok none :=
    bestQualitySearch_stays
      (fun q hq1 hq2 => htotal img (Or.inl rfl) q hq1 hq2)
      (fun q hq1 hq2 buffer hbuf => key img (Or.inl rfl) q hq1 hq2 buffer hbuf)
  have hloop : scaleLoop b img target format 20 (19 / 20 : ℚ) = Except.ok none := by
    apply scaleLoop_stays
    · intro j hj q hq1 hq2
      exact htotal _ (Or.inr ⟨j, hj, rfl⟩) q hq1 hq2
    · intro j hj q hq1 hq2 buffer hbuf
      exact key _ (Or.inr ⟨j, hj, rfl⟩) q hq1 hq2 buffer hbuf
  unfold smart_compress
  simp [houter, hloop]

/-- Witness for C7 (amended): the two-byte-constant encoder is trivially
monotone and oversized for budget 1 everywhere, so the auto-scaling run
ends in the unreachable-target error. -/
theorem smart_compress_unreachable_of_monotone_checked :
    smart_compress constBackend () 1 ImageFormat.Jpeg false true =
      Except.error "Could not achieve target file size" :=
  smart_compress_unreachable_of_monotone constBackend () 1 ImageFormat.Jpeg false
    (fun i _ q _ _ => ⟨[0, 0], rfl⟩)
    (fun i _ q₁ q₂ buf₁ buf₂ _ _ h₁ h₂ => by
      have e₁ := Except.ok.inj h₁
      have e₂ := Except.ok.inj h₂
      rw [← e₁, ← e₂])
    (fun i _ buffer hbuf => by
      have e := Except.ok.inj hbuf
      rw [← e]
      decide)

/-- Counterexample to C8 as stated: a failing encoder aborts the quality
search with its error after a single probe (the trace is just [52] out of
a range of 86 qualities), and smart_compress propagates that error, so
the search is not free of failure conditions. -/
theorem quality_search_error_aborts :
    bestQualitySearch (fun q => save_to_buffer errBackend () ImageFormat.Jpeg q)
      100 100 10 95 none = Except.error "boom" ∧
    bestQualityProbes (fun q => save_to_buffer errBackend () ImageFormat.Jpeg q)
      100 100 10 95 = [52] ∧
    smart_compress errBackend () 100 ImageFormat.Jpeg false false =
      Except.error "boom" :=
  ⟨rfl, rfl, rfl⟩

/-- C8 (amended): provided every probed encoding succeeds, the quality
search never terminates early: every probe is handled solely as fit or
not-fit and the search returns an outcome (possibly none) rather than an
error. -/
theorem quality_search_no_error_of_encodes_ok (b : ImageBackend Image) (img : Image)
    (target : Nat) (format : ImageFormat)
    (henc : ∀ q, 10 ≤ q → q ≤ 95 →
      ∃ buffer, save_to_buffer b img format q = Except.ok buffer) :
    ∃ o, bestQualitySearch (fun q => save_to_buffer b img format q) target 100 10 95 none =
      Except.ok o :=
  bestQualitySearch_no_error henc

/-- Witness for C8 (amended): the always-succeeding size-equals-quality
encoder yields an error-free search outcome. -/
theorem quality_search_no_error_of_encodes_ok_checked :
    ∃ o, bestQualitySearch (fun q => save_to_buffer qsizeBackend () ImageFormat.Jpeg q)
      60 100 10 95 none = Except.ok o :=
  quality_search_no_error_of_encodes_ok qsizeBackend () 60 ImageFormat.Jpeg
    (fun q _ _ => ⟨List.replicate q 0, rfl⟩)

/-- C9: encoding to a buffer with the WebP format tag produces exactly
the same bytes as encoding with the JPEG format tag at the same quality;
WebP output degrades to JPEG encoding. -/
theorem save_to_buffer_webp_eq_jpeg (b : ImageBackend Image) (img : Image)
    (quality : Nat) :
    save_to_buffer b img ImageFormat.WebP quality =
      save_to_buffer b img ImageFormat.Jpeg quality := rfl

/-- C10: the quality parameter does not influence PNG output; encoding
with the PNG format tag yields identical bytes for any two qualities. -/
theorem save_to_buffer_png_ignores_quality (b : ImageBackend Image) (img : Image)
    (q₁ q₂ : Nat) :
    save_to_buffer b img ImageFormat.Png q₁ = save_to_buffer b img ImageFormat.Png q₂ :=
  rfl

/-! ### Fuel adequacy

The fuel constants passed by smart_compress strictly dominate the loops'
iteration counts, so the fueled embeddings coincide with the Rust while
loops: any two sufficient fuels give the same run. -/

/-- Fuel does not matter for the best-quality search once it exceeds the
size of the searched range. -/
theorem bestQualitySearch_fuel_irrelevant {enc : Nat → Except String (List Nat)}
    {target : Nat} :
    ∀ {f₁ f₂ low high : Nat} {best : Option CompressionResult}, 1 ≤ low →
      high + 1 - low < f₁ → high + 1 - low < f₂ →
      bestQualitySearch enc target f₁ low high best =
        bestQualitySearch enc target f₂ low high best := by
  intro f₁
  induction f₁ with
  | zero =>
    intro f₂ low high best hlow h₁ h₂
    omega
  | succ f₁ ih =>
    intro f₂ low high best hlow h₁ h₂
    cases f₂ with
    | zero => omega
    | succ f₂ =>
      simp only [bestQualitySearch]
      by_cases hlh : low ≤ high
      · rw [if_pos hlh, if_pos hlh]
        cases henc : enc ((low + high) / 2) with
        | error e => simp [henc]
        | ok buffer =>
          simp only [henc]
          by_cases hfit : buffer.length ≤ target
          · rw [if_pos hfit, if_pos hfit]
            exact ih (by omega) (by omega) (by omega)
          · rw [if_neg hfit, if_neg hfit]
            exact ih (by omega) (by omega) (by omega)
      · rw [if_neg hlh, if_neg hlh]

/-- Fuel does not matter for the first-fit search once it exceeds the
size of the searched range. -/
theorem firstFitSearch_fuel_irrelevant {enc : Nat → Except String (List Nat)}
    {target : Nat} {scale : ℚ} :
    ∀ {f₁ f₂ low high : Nat}, 1 ≤ low →
      high + 1 - low < f₁ → high + 1 - low < f₂ →
      firstFitSearch enc target scale f₁ low high =
        firstFitSearch enc target scale f₂ low high := by
  intro f₁
  induction f₁ with
  | zero =>
    intro f₂ low high hlow h₁ h₂
    omega
  | succ f₁ ih =>
    intro f₂ low high hlow h₁ h₂
    cases f₂ with
    | zero => omega
    | succ f₂ =>
      simp only [firstFitSearch]
      by_cases hlh : low ≤ high
      · rw [if_pos hlh, if_pos hlh]
        cases henc : enc ((low + high) / 2) with
        | error e => simp [henc]
        | ok buffer =>
          simp only [henc]
          by_cases hfit : buffer.length ≤ target
          · rw [if_pos hfit, if_pos hfit]
          · rw [if_neg hfit, if_neg hfit]
            exact ih (by omega) (by omega) (by omega)
      · rw [if_neg hlh, if_neg hlh]

/-- Fuel does not matter for the scale-fallback loop once it exceeds the
number of schedule values above the 0.3 cutoff. -/
theorem scaleLoop_fuel_irrelevant {b : ImageBackend Image} {img : Image} {target : Nat}
    {format : ImageFormat} :
    ∀ {f₁ f₂ j : Nat}, 8 - j < f₁ → 8 - j < f₂ →
      scaleLoop b img target format f₁ (sched j) =
        scaleLoop b img target format f₂ (sched j) := by
  intro f₁
  induction f₁ with
  | zero =>
    intro f₂ j h₁ h₂
    omega
  | succ f₁ ih =>
    intro f₂ j h₁ h₂
    cases f₂ with
    | zero => omega
    | succ f₂ =>
      simp only [scaleLoop]
      by_cases hs : 3 / 10 < sched j
      · rw [if_pos hs, if_pos hs]
        have hj8 := lt_eight_of_sched_gt hs
        cases hinner : firstFitSearch
            (fun q => save_to_buffer b (scale_image b img (sched j)) format q)
            target (sched j) 50 60 95 with
        | error e => simp [hinner]
        | ok o =>
          cases o with
          | some r => simp [hinner]
          | none =>
            simp only [hinner]
            have hnext : sched j * (17 / 20 : ℚ) = sched (j + 1) := by
              unfold sched
              ring
            rw [hnext]
            exact ih (by omega) (by omega)
      · rw [if_neg hs, if_neg hs]

end ImageResizer
